import Mathlib

/-!
Shallow embedding of the lead-tracker import-and-aggregation engine
(`src/App.tsx`): currency parsing, reply-time resolution, CSV/TSV reading,
header normalization, row mapping, the scorecard fallback transformer, KPI
statistics, the month partition, and the windowed weekly aggregation.

JavaScript numbers are modelled as exact rationals (`ℚ`); `NaN` and the
infinities are modelled together as a failed parse (`Option.none`), since the
code only ever tests them through `Number.isFinite`.  Strings are processed
through character lists so that every definition is executable.
-/

unseal Rat.mul Rat.add Rat.sub Rat.inv Rat.ofScientific

namespace LeadTracker

/-! ## Character and string toolkit (JS semantics) -/

/-- JavaScript whitespace for `\s`, `String.prototype.trim` and the
`ToNumber` conversion: ASCII whitespace plus NBSP and the BOM/ZWNBSP. -/
def jsIsSpace (c : Char) : Bool :=
  c = ' ' || c = '\t' || c = '\n' || c = '\r' ||
  c.toNat = 0x0B || c.toNat = 0x0C || c.toNat = 0xA0 || c.toNat = 0xFEFF

def isAsciiDigit (c : Char) : Bool := '0' ≤ c && c ≤ '9'

def isAsciiLetter (c : Char) : Bool :=
  ('a' ≤ c && c ≤ 'z') || ('A' ≤ c && c ≤ 'Z')

def trimStartL : List Char → List Char
  | [] => []
  | c :: cs => if jsIsSpace c then trimStartL cs else c :: cs

def trimEndL (cs : List Char) : List Char :=
  (trimStartL cs.reverse).reverse

def trimL (cs : List Char) : List Char :=
  trimEndL (trimStartL cs)

/-- JS `String.prototype.trim`. -/
def jsTrim (s : String) : String := String.mk (trimL s.data)

/-- JS `String.prototype.trimEnd` (used on each raw line). -/
def jsTrimEnd (s : String) : String := String.mk (trimEndL s.data)

/-- ASCII lower-casing, as `toLowerCase` behaves on the strings involved. -/
def toLowerL (cs : List Char) : List Char := cs.map Char.toLower

def jsToLower (s : String) : String := String.mk (toLowerL s.data)

def isPrefixL : List Char → List Char → Bool
  | [], _ => true
  | _ :: _, [] => false
  | p :: ps, c :: cs => p = c && isPrefixL ps cs

/-- Substring containment, as JS `String.prototype.includes`. -/
def containsSub (pat : List Char) : List Char → Bool
  | [] => pat.isEmpty
  | c :: cs => isPrefixL pat (c :: cs) || containsSub pat cs

def strIncludes (s pat : String) : Bool := containsSub pat.data s.data

/-- Split on a single character (JS `split('\t')`, `split('-')`). -/
def splitOnChar (sep : Char) (cs : List Char) : List (List Char) :=
  match cs with
  | [] => [[]]
  | c :: rest =>
    let r := splitOnChar sep rest
    if c = sep then [] :: r
    else
      match r with
      | [] => [[c]]
      | f :: fs => (c :: f) :: fs

/-- Split on `/\r?\n/`: a line break is `\n`, optionally preceded by `\r`
which is consumed with it.  A lone `\r` is not a separator. -/
def splitLinesL : List Char → List (List Char)
  | [] => [[]]
  | '\r' :: '\n' :: rest => [] :: splitLinesL rest
  | '\n' :: rest => [] :: splitLinesL rest
  | c :: rest =>
    match splitLinesL rest with
    | [] => [[c]]
    | f :: fs => (c :: f) :: fs

/-- Numeric value of a digit character. -/
def digitVal (c : Char) : Nat := c.toNat - '0'.toNat

/-- Value of a digit string (most significant first). -/
def natOfDigits (cs : List Char) : Nat :=
  cs.foldl (fun acc c => acc * 10 + digitVal c) 0

/-- First maximal run of ASCII digits, as JS `str.match(/\d+/)`. -/
def firstDigitRunL : List Char → Option (List Char)
  | [] => none
  | c :: cs =>
    if isAsciiDigit c then
      some (c :: cs.takeWhile isAsciiDigit)
    else firstDigitRunL cs

def firstDigitRun (s : String) : Option String :=
  (firstDigitRunL s.data).map String.mk

/-- `String(n).padStart(2, '0')` for a natural number. -/
def pad2 (n : Nat) : String :=
  if n < 10 then "0" ++ toString n else toString n

/-! ## JS `Number(string)` (the `ToNumber` conversion)

Modelled exactly as an `Option ℚ`: `none` stands for every non-finite result
(`NaN`, `±Infinity`) — the code only inspects such results through
`Number.isFinite`.  The conversion trims whitespace, maps the empty string to
`0`, and otherwise parses a signed decimal literal (with optional fraction
and exponent), an unsigned hex/octal/binary literal, or `Infinity`. -/

def takeDigits (cs : List Char) : List Char × List Char :=
  (cs.takeWhile isAsciiDigit, cs.dropWhile isAsciiDigit)

/-- Parse the exponent part after `e`/`E`: optional sign then digits. -/
def parseExponent (cs : List Char) : Option Int :=
  match cs with
  | '+' :: rest =>
    let (ds, rest') := takeDigits rest
    if ds.isEmpty || !rest'.isEmpty then none else some (natOfDigits ds : Int)
  | '-' :: rest =>
    let (ds, rest') := takeDigits rest
    if ds.isEmpty || !rest'.isEmpty then none else some (-(natOfDigits ds : Int))
  | _ =>
    let (ds, rest') := takeDigits cs
    if ds.isEmpty || !rest'.isEmpty then none else some (natOfDigits ds : Int)

/-- Scale a rational by a power of ten. -/
def scalePow10 (q : ℚ) (e : Int) : ℚ :=
  match e with
  | Int.ofNat n => q * ((10 ^ n : ℕ) : ℚ)
  | Int.negSucc n => q / ((10 ^ (n + 1) : ℕ) : ℚ)

/-- Unsigned decimal literal: `digits`, `digits.digits?`, `.digits`,
each with an optional exponent. -/
def parseUnsignedDecimal (cs : List Char) : Option ℚ :=
  let (intPart, rest) := takeDigits cs
  match rest with
  | '.' :: rest' =>
    let (fracPart, rest'') := takeDigits rest'
    if intPart.isEmpty && fracPart.isEmpty then none
    else
      let base : ℚ := (natOfDigits intPart : ℚ) +
        (natOfDigits fracPart : ℚ) / ((10 ^ fracPart.length : ℕ) : ℚ)
      match rest'' with
      | [] => some base
      | 'e' :: ex => (parseExponent ex).map (scalePow10 base)
      | 'E' :: ex => (parseExponent ex).map (scalePow10 base)
      | _ => none
  | _ =>
    if intPart.isEmpty then none
    else
      let base : ℚ := (natOfDigits intPart : ℚ)
      match rest with
      | [] => some base
      | 'e' :: ex => (parseExponent ex).map (scalePow10 base)
      | 'E' :: ex => (parseExponent ex).map (scalePow10 base)
      | _ => none

def isHexDigit (c : Char) : Bool :=
  isAsciiDigit c || ('a' ≤ c && c ≤ 'f') || ('A' ≤ c && c ≤ 'F')

def hexVal (c : Char) : Nat :=
  if isAsciiDigit c then digitVal c
  else if 'a' ≤ c && c ≤ 'f' then c.toNat - 'a'.toNat + 10
  else c.toNat - 'A'.toNat + 10

def radixValue (radix : Nat) (cs : List Char) : Nat :=
  cs.foldl (fun acc c => acc * radix + hexVal c) 0

/-- Non-decimal integer literals `0x…`, `0o…`, `0b…` (no sign allowed). -/
def parseNonDecimal (cs : List Char) : Option ℚ :=
  match cs with
  | '0' :: x :: rest =>
    if x = 'x' || x = 'X' then
      if !rest.isEmpty && rest.all isHexDigit
      then some (radixValue 16 rest : ℚ) else none
    else if x = 'o' || x = 'O' then
      if !rest.isEmpty && rest.all (fun c => '0' ≤ c && c ≤ '7')
      then some (radixValue 8 rest : ℚ) else none
    else if x = 'b' || x = 'B' then
      if !rest.isEmpty && rest.all (fun c => c = '0' || c = '1')
      then some (radixValue 2 rest : ℚ) else none
    else none
  | _ => none

/-- The numeric body after trimming: signed decimal, `Infinity` (non-finite,
hence `none`), or unsigned non-decimal literal. -/
def parseNumericBody (cs : List Char) : Option ℚ :=
  match cs with
  | '+' :: rest =>
    if rest = "Infinity".data then none else parseUnsignedDecimal rest
  | '-' :: rest =>
    if rest = "Infinity".data then none
    else (parseUnsignedDecimal rest).map Neg.neg
  | _ =>
    if cs = "Infinity".data then none
    else
      match parseNonDecimal cs with
      | some q => some q
      | none => parseUnsignedDecimal cs

/-- JS `Number(s)`, with `none` for every non-finite result. -/
def jsNumber (s : String) : Option ℚ :=
  let t := trimL s.data
  if t.isEmpty then some 0 else parseNumericBody t


/-! ## Data model -/

/-- The two legal boolean values (`'Yes' | 'No'`). -/
inductive YesNo where
  | yes
  | no
deriving DecidableEq

/-- The four reply-time buckets. -/
inductive ReplyTimeCategory where
  | cat730    -- "7:00-3:30"
  | cat300    -- "3:00-6:00"
  | after6    -- "After 6"
  | weekend   -- "Weekend"
deriving DecidableEq

def defaultReplyCategory : ReplyTimeCategory := .cat730

/-- A Lead record (the document id plays no role in the logic and is
omitted); `replyTime` is the optional legacy free-text field. -/
structure Lead where
  date : String
  customer : String
  leadSource : String
  jobType : String
  leadCost : String
  jobWon : YesNo
  comments : String
  replyTimeCategory : ReplyTimeCategory
  replyTimeMinutes : String
  booked : YesNo
  sold : YesNo
  cancelled : YesNo
  soldAmount : String
  revenue : String
  replyTime : Option String := none
deriving DecidableEq

/-! ## Currency parsing and reply-minutes resolution -/

def isMoneyChar (c : Char) : Bool := isAsciiDigit c || c = '.' || c = '-'

/-- `value.replace(/[^\d.-]/g, '')`. -/
def stripMoney (s : String) : String :=
  String.mk (s.data.filter isMoneyChar)

/-- `parseMoney`: strip to digits/dot/minus, `Number(...)`, and coerce a
non-finite parse to `0`. -/
def parseMoney (value : String) : ℚ :=
  match jsNumber (stripMoney value) with
  | some num => num
  | none => 0

/-- `getReplyMinutes`: prefer `Number(replyTimeMinutes)` when finite and
non-negative; else, when the legacy `replyTime` is present and truthy
(non-empty), its first digit run; else no value. -/
def getReplyMinutes (lead : Lead) : Option ℚ :=
  let fallback : Option ℚ :=
    match lead.replyTime with
    | some t =>
      if t = "" then none
      else
        match firstDigitRunL t.data with
        | some ds => some (natOfDigits ds : ℚ)
        | none => none
    | none => none
  match jsNumber lead.replyTimeMinutes with
  | some fromNew => if 0 ≤ fromNew then some fromNew else fallback
  | none => fallback


/-- The all-defaults Lead (`emptyLead` in the source, with the legacy
field absent). -/
def emptyLead : Lead :=
  { date := "", customer := "", leadSource := "", jobType := "",
    leadCost := "", jobWon := .no, comments := "",
    replyTimeCategory := defaultReplyCategory, replyTimeMinutes := "",
    booked := .no, sold := .no, cancelled := .no,
    soldAmount := "", revenue := "", replyTime := none }

/-! ## 4.1 Tabular Reader (`csvToMatrix`) -/

/-- The non-empty, end-trimmed lines of the file. -/
def csvLines (text : String) : List (List Char) :=
  ((splitLinesL text.data).map trimEndL).filter (fun l => !l.isEmpty)

/-- The quote-aware comma state machine of `parseLine`: `"` toggles the
in-quotes state, `""` inside quotes emits one literal quote, and `,` splits
only outside quotes; every finished field is trimmed. -/
def commaSplitAux : List Char → Bool → List Char → List (List Char) →
    List (List Char)
  | [], _, current, values => values ++ [trimL current]
  | '"' :: '"' :: rest, true, current, values =>
    commaSplitAux rest true (current ++ ['"']) values
  | '"' :: rest, inQuotes, current, values =>
    commaSplitAux rest (!inQuotes) current values
  | ',' :: rest, false, current, values =>
    commaSplitAux rest false [] (values ++ [trimL current])
  | c :: rest, inQuotes, current, values =>
    commaSplitAux rest inQuotes (current ++ [c]) values

def splitCommaLine (l : List Char) : List (List Char) :=
  commaSplitAux l false [] []

/-- Tab mode: strict split on tab, each field trimmed, quotes uninterpreted. -/
def splitTabLine (l : List Char) : List (List Char) :=
  (splitOnChar '\t' l).map trimL

def parseLine (tabDelim : Bool) (l : List Char) : List String :=
  if tabDelim then (splitTabLine l).map String.mk
  else (splitCommaLine l).map String.mk

/-- `csvToMatrix`: split into non-empty trimmed-end lines, choose the
delimiter once from the first line, and parse every line with it. -/
def csvToMatrix (text : String) : List (List String) :=
  match csvLines text with
  | [] => []
  | first :: _ =>
    let tabDelim := first.contains '\t'
    (csvLines text).map (parseLine tabDelim)

/-! ## 4.2 Header Normalizer -/

/-- `replace(/^﻿/, '')`: strip one leading byte-order mark. -/
def stripBOM : List Char → List Char
  | [] => []
  | c :: rest => if c.toNat = 0xFEFF then rest else c :: rest

/-- `replace(/[\s_]+/g, ' ')`: collapse every run of whitespace or
underscores into a single space. -/
def collapseAux : Bool → List Char → List Char
  | _, [] => []
  | prevRun, c :: rest =>
    if jsIsSpace c || c = '_' then
      if prevRun then collapseAux true rest
      else ' ' :: collapseAux true rest
    else c :: collapseAux false rest

def collapseRuns (cs : List Char) : List Char := collapseAux false cs

def normalizeHeader (value : String) : String :=
  String.mk (collapseRuns (toLowerL (trimL (stripBOM value.data))))

/-! ## Header-keyed records (`csvToRows`)

A JS object with string keys is an insertion-ordered map with unique keys:
assignment replaces the value at an existing key in place, otherwise appends. -/

abbrev RowRec := List (String × String)

def rowSet : RowRec → String → String → RowRec
  | [], k, v => [(k, v)]
  | (k', v') :: rest, k, v =>
    if k' = k then (k, v) :: rest else (k', v') :: rowSet rest k v

def rowGet (r : RowRec) (k : String) : Option String :=
  (r.find? (fun p => p.1 == k)).map (·.2)

/-- JS `String.prototype.endsWith`. -/
def strEndsWith (s suffix : String) : Bool :=
  isPrefixL suffix.data.reverse s.data.reverse

/-- `csvToRows`: header row → normalized keys; each data row becomes a
record over those keys (missing cells default to the empty string). -/
def csvToRows (text : String) : List RowRec :=
  let matrix := csvToMatrix text
  if matrix.length < 2 then []
  else
    let headers := (matrix.headD []).map normalizeHeader
    matrix.tail.map (fun cols =>
      headers.enum.foldl
        (fun acc p => rowSet acc p.2 (jsTrim (cols.getD p.1 ""))) [])

/-! ## 4.4 Scorecard Transformer -/

def toUpperL (cs : List Char) : List Char := cs.map Char.toUpper

/-- Does `/[A-Z]{3}:\s*\d+/i` match starting at this position? -/
def startsWeekPattern (cs : List Char) : Bool :=
  match cs with
  | a :: b :: c :: ':' :: rest =>
    isAsciiLetter a && isAsciiLetter b && isAsciiLetter c &&
    (match rest.dropWhile jsIsSpace with
     | d :: _ => isAsciiDigit d
     | [] => false)
  | _ => false

/-- `/[A-Z]{3}:\s*\d+/i.test(s)`: the pattern occurs somewhere in `s`. -/
def hasWeekPattern : List Char → Bool
  | [] => false
  | c :: rest => startsWeekPattern (c :: rest) || hasWeekPattern rest

def weekTest (s : String) : Bool := hasWeekPattern s.data

/-- Capture of `/([A-Z]{3}):\s*(\d{1,2})/i` at this position: the three
letters and the (greedy, at most two digit) day number. -/
def weekCaptureAt (cs : List Char) : Option (List Char × Nat) :=
  match cs with
  | a :: b :: c :: ':' :: rest =>
    if isAsciiLetter a && isAsciiLetter b && isAsciiLetter c then
      match rest.dropWhile jsIsSpace with
      | d1 :: tail =>
        if isAsciiDigit d1 then
          match tail with
          | d2 :: _ =>
            if isAsciiDigit d2 then some ([a, b, c], natOfDigits [d1, d2])
            else some ([a, b, c], natOfDigits [d1])
          | [] => some ([a, b, c], natOfDigits [d1])
        else none
      | [] => none
    else none
  | _ => none

/-- Leftmost match of `/([A-Z]{3}):\s*(\d{1,2})/i`. -/
def firstWeekMatch : List Char → Option (List Char × Nat)
  | [] => none
  | c :: rest =>
    match weekCaptureAt (c :: rest) with
    | some r => some r
    | none => firstWeekMatch rest

/-- The fixed three-letter month table. -/
def monthMap (k : List Char) : Option Nat :=
  if k = "JAN".data then some 1
  else if k = "FEB".data then some 2
  else if k = "MAR".data then some 3
  else if k = "APR".data then some 4
  else if k = "MAY".data then some 5
  else if k = "JUN".data then some 6
  else if k = "JUL".data then some 7
  else if k = "AUG".data then some 8
  else if k = "SEP".data then some 9
  else if k = "OCT".data then some 10
  else if k = "NOV".data then some 11
  else if k = "DEC".data then some 12
  else none

/-- `row[0]?.toLowerCase().includes(pat)` (an absent first cell is falsy). -/
def headCellContains (row : List String) (pat : String) : Bool :=
  match row.head? with
  | some c => strIncludes (jsToLower c) pat
  | none => false

/-- One synthesized Lead of the scorecard expansion. -/
def scorecardLead (year : Nat) (source : String) (weekLabelCell : String)
    (mon day i : Nat) : Lead :=
  { date := toString year ++ "-" ++ pad2 mon ++ "-" ++ pad2 day,
    customer := "Imported " ++ source ++ " Lead " ++ toString i,
    leadSource := source,
    jobType := "Imported",
    leadCost := "$0",
    jobWon := .no,
    comments := "Imported from marketing scorecard (" ++ weekLabelCell ++ ")",
    replyTimeCategory := defaultReplyCategory,
    replyTimeMinutes := "",
    booked := .no,
    sold := .no,
    cancelled := .no,
    soldAmount := "$0",
    revenue := "$0",
    replyTime := none }

/-- `parseScorecardToLeads`, factored over an already-parsed matrix; `year`
is the current calendar year (`new Date().getFullYear()`). -/
def scorecardFromMatrix (matrix : List (List String)) (year : Nat) :
    List Lead :=
  if matrix.isEmpty then []
  else
    match matrix.find? (fun row => row.any weekTest) with
    | none => []
    | some headerRow =>
      match matrix.findIdx? (fun row => headCellContains row "channel performance") with
      | none => []
      | some channelStart =>
        let weekColumns :=
          (headerRow.enum.map (fun p => (p.1, jsTrim p.2))).filter
            (fun x => weekTest x.2)
        if weekColumns.isEmpty then []
        else
          let endIdx :=
            (matrix.enum.find? (fun p =>
              decide (channelStart < p.1) &&
              headCellContains p.2 "brand & reputation")).map (·.1)
          let stop :=
            match endIdx with
            | some e => e
            | none => channelStart + 8
          let channelRows :=
            (matrix.drop (channelStart + 1)).take (stop - (channelStart + 1))
          channelRows.flatMap (fun row =>
            let source := jsTrim (row.headD "")
            if source = "" || strIncludes (jsToLower source) "goal" ||
                strIncludes (jsToLower source) "actual" then []
            else
              weekColumns.flatMap (fun week =>
                let raw := row.getD week.1 ""
                let count :=
                  match firstDigitRunL raw.data with
                  | some ds => natOfDigits ds
                  | none => 0
                if count < 1 then []
                else
                  let wm := firstWeekMatch week.2.data
                  let mon :=
                    match wm with
                    | some (letters, _) => monthMap (toUpperL letters)
                    | none => none
                  let day :=
                    match wm with
                    | some (_, d) => d
                    | none => 1
                  let monOr1 :=
                    match mon with
                    | some m => m
                    | none => 1
                  (List.range count).map (fun i =>
                    scorecardLead year source week.2 monOr1 day (i + 1))))

def parseScorecardToLeads (text : String) (year : Nat) : List Lead :=
  scorecardFromMatrix (csvToMatrix text) year

/-! ## 4.3 Row Mapper (`normalizeImportedLead`) and the import pipeline -/

/-- `value?.toLowerCase() === 'yes'`. -/
def yesNo (value : String) : YesNo :=
  if jsToLower value = "yes" then .yes else .no

/-- JS `v || d` for strings: the empty string is falsy. -/
def orDefault (v d : String) : String := if v = "" then d else v

/-- `pick(...keys)`: first alias whose normalized key is present with a
non-empty value. -/
def pick (row : RowRec) : List String → String
  | [] => ""
  | k :: ks =>
    match rowGet row (normalizeHeader k) with
    | some v => if v = "" then pick row ks else v
    | none => pick row ks

/-- The `allowed.includes(raw)` check (exact, case-sensitive), defaulting
to the first bucket. -/
def parseCategory (raw : String) : ReplyTimeCategory :=
  if raw = "7:00-3:30" then .cat730
  else if raw = "3:00-6:00" then .cat300
  else if raw = "After 6" then .after6
  else if raw = "Weekend" then .weekend
  else defaultReplyCategory

/-- `normalizeImportedLead`: map one header-keyed record to a Lead input. -/
def normalizeImportedLead (row : RowRec) : Lead :=
  { date := pick row ["date"],
    customer := pick row ["customer", "name"],
    leadSource := pick row ["lead source", "source"],
    jobType := pick row ["job type"],
    leadCost := orDefault (pick row ["lead cost", "cost"]) "$0",
    jobWon := yesNo (orDefault (pick row ["job won", "sold"]) "No"),
    comments := pick row ["comments"],
    replyTimeCategory := parseCategory (pick row ["reply time category"]),
    replyTimeMinutes := pick row ["reply time minutes"],
    booked := yesNo (orDefault (pick row ["booked"]) "No"),
    sold := yesNo (orDefault (pick row ["sold", "job won"]) "No"),
    cancelled := yesNo (orDefault (pick row ["cancelled", "canceled"]) "No"),
    soldAmount := orDefault (pick row ["sold amount"]) "$0",
    revenue := orDefault (pick row ["revenue"]) "$0",
    replyTime := none }

/-- The write-time spread `{ ...lead, jobWon: lead.sold }` used by both
`addDoc` calls of `handleFileImport` and by `saveLead`. -/
def writeRecord (l : Lead) : Lead := { l with jobWon := l.sold }

/-- The `normalizedForm` written by `saveLead` (manual save). -/
def saveLeadRecord (form : Lead) : Lead := { form with jobWon := form.sold }

/-- The row-import loop of `handleFileImport`: each mapped row lacking a
date or customer is skipped (`continue`), every other row is written with
`jobWon := sold` and counted. -/
def importRowPhase (rows : List RowRec) : List Lead × Nat :=
  rows.foldl
    (fun acc r =>
      let lead := normalizeImportedLead r
      if lead.date = "" || lead.customer = "" then acc
      else (acc.1 ++ [writeRecord lead], acc.2 + 1))
    ([], 0)

/-- Extension dispatch of `handleFileImport`: everything that is not
`.json`/`.xlsx`/`.xls` goes down the tabular (CSV) path. -/
def importDispatchIsTabular (fileName : String) : Bool :=
  let lowerName := jsToLower fileName
  !(strEndsWith lowerName ".json" || strEndsWith lowerName ".xlsx" ||
    strEndsWith lowerName ".xls")

/-- Outcome of the tabular branch of `handleFileImport`. -/
structure ImportOutcome where
  rowsCount : Nat
  acceptedCount : Nat
  scorecardAttempted : Bool
  written : List Lead
  importedCount : Nat
deriving DecidableEq

/-- The tabular (`csvToRows`) branch of `handleFileImport`: an empty row
list returns early; otherwise the rows are imported, and only when zero
rows were accepted *and* the lower-cased name ends in `.csv`/`.tsv` is the
scorecard transformer attempted. -/
def handleCsvImport (fileName text : String) (year : Nat) : ImportOutcome :=
  let rows := csvToRows text
  if rows.isEmpty then
    { rowsCount := 0, acceptedCount := 0, scorecardAttempted := false,
      written := [], importedCount := 0 }
  else
    let lowerName := jsToLower fileName
    let phase := importRowPhase rows
    if phase.2 = 0 && (strEndsWith lowerName ".csv" || strEndsWith lowerName ".tsv")
    then
      let sc := (parseScorecardToLeads text year).map writeRecord
      { rowsCount := rows.length, acceptedCount := phase.2,
        scorecardAttempted := true, written := phase.1 ++ sc,
        importedCount := phase.2 + sc.length }
    else
      { rowsCount := rows.length, acceptedCount := phase.2,
        scorecardAttempted := false, written := phase.1,
        importedCount := phase.2 }

/-! ## 4.5 Aggregation Engine: global KPIs (`stats`) -/

structure Stats where
  totalLeads : Nat
  wonLeads : Nat
  totalCost : ℚ
  winRate : ℚ
  avgReplyTime : ℚ
deriving DecidableEq

def stats (leads : List Lead) : Stats :=
  let totalLeads := leads.length
  let wonLeads := (leads.filter (fun l => l.jobWon = YesNo.yes)).length
  let totalCost := leads.foldl (fun sum l => sum + parseMoney l.leadCost) 0
  let winRate :=
    if totalLeads > 0 then ((wonLeads : ℚ) / (totalLeads : ℚ)) * 100 else 0
  let replyTimes := leads.filterMap getReplyMinutes
  let avgReplyTime :=
    if replyTimes.length > 0 then
      replyTimes.foldl (· + ·) 0 / (replyTimes.length : ℚ)
    else 0
  { totalLeads, wonLeads, totalCost, winRate, avgReplyTime }

/-! ## Month partition (`monthWeeks`) -/

def isLeap (y : Nat) : Bool := y % 4 = 0 && (y % 100 ≠ 0 || y % 400 = 0)

/-- Gregorian month length. -/
def gregorianDays (y m : Nat) : Nat :=
  if m = 2 then (if isLeap y then 29 else 28)
  else if m = 4 || m = 6 || m = 9 || m = 11 then 30
  else 31

/-- The two-digit-year quirk of the `Date(year, month, day)` constructor:
years 0–99 denote 1900–1999. -/
def jsFullYear (y : Nat) : Nat := if y ≤ 99 then 1900 + y else y

/-- `new Date(year, month, 0).getDate()`: the number of days in 1-based
`month` of `year`. -/
def daysInMonth (y m : Nat) : Nat := gregorianDays (jsFullYear y) m

def weekLabel (startDay endDay : Nat) : String :=
  toString startDay ++ "-" ++ toString endDay

/-- The `for (start = 1; start <= lastDay; start += 7)` loop, with fuel
(`lastDay` steps always suffice since `start` grows by 7). -/
def weekRangesFrom : Nat → Nat → Nat → List (Nat × Nat)
  | 0, _, _ => []
  | fuel + 1, start, lastDay =>
    if start ≤ lastDay then
      (start, min (start + 6) lastDay) :: weekRangesFrom fuel (start + 7) lastDay
    else []

def weekRanges (lastDay : Nat) : List (Nat × Nat) :=
  weekRangesFrom lastDay 1 lastDay

/-- `monthWeeks` after the `Number(...)` parse of the selected month;
the `!year || !month` guard returns the fixed default list. -/
def monthWeeks (year month : Nat) : List String :=
  if year = 0 || month = 0 then ["1-7", "8-14", "15-21", "22-28"]
  else (weekRanges (daysInMonth year month)).map (fun p => weekLabel p.1 p.2)

/-- `rs` is a partition of days `1..lastDay` into contiguous ranges of at
most 7 days starting at day 1 (checked from expected start day `start`). -/
def coversFrom : Nat → Nat → List (Nat × Nat) → Bool
  | start, lastDay, [] => start = lastDay + 1
  | start, lastDay, (s, e) :: rest =>
    s = start && start ≤ e && e ≤ lastDay && e + 1 ≤ start + 7 &&
    coversFrom (e + 1) lastDay rest

/-! ## Windowed ("weekly") view -/

/-- `new Date(date + 'T00:00:00')` on an ISO `YYYY-MM-DD` string: the
calendar components when the date is well-formed, `none` (an invalid date)
otherwise. -/
def parseISODate (s : String) : Option (Nat × Nat × Nat) :=
  match s.data with
  | [y1, y2, y3, y4, '-', m1, m2, '-', d1, d2] =>
    if [y1, y2, y3, y4, m1, m2, d1, d2].all isAsciiDigit then
      let y := natOfDigits [y1, y2, y3, y4]
      let m := natOfDigits [m1, m2]
      let d := natOfDigits [d1, d2]
      if 1 ≤ m && m ≤ 12 && 1 ≤ d && d ≤ gregorianDays y m then
        some (y, m, d)
      else none
    else none
  | _ => none

def inWindow (year month startDay endDay : Nat) (l : Lead) : Bool :=
  match parseISODate l.date with
  | some (y, m, d) =>
    y = year && m = month && startDay ≤ d && d ≤ endDay
  | none => false

def windowFiltered (leads : List Lead) (year month startDay endDay : Nat) :
    List Lead :=
  leads.filter (inWindow year month startDay endDay)

/-- Per-source accumulator of the weekly grouping. -/
structure Group where
  spend : ℚ
  leads : Nat
  booked : Nat
  sold : Nat
  cancelled : Nat
  soldAmount : ℚ
  revenue : ℚ
deriving DecidableEq

def zeroGroup : Group :=
  { spend := 0, leads := 0, booked := 0, sold := 0, cancelled := 0,
    soldAmount := 0, revenue := 0 }

def bumpGroup (g : Group) (l : Lead) : Group :=
  { spend := g.spend + parseMoney l.leadCost,
    leads := g.leads + 1,
    booked := if l.booked = YesNo.yes then g.booked + 1 else g.booked,
    sold := if l.sold = YesNo.yes then g.sold + 1 else g.sold,
    cancelled := if l.cancelled = YesNo.yes then g.cancelled + 1 else g.cancelled,
    soldAmount := g.soldAmount + parseMoney l.soldAmount,
    revenue := g.revenue + parseMoney l.revenue }

/-- `lead.leadSource || 'Unknown'`. -/
def leadKey (l : Lead) : String :=
  if l.leadSource = "" then "Unknown" else l.leadSource

/-- A JS-object upsert: update the value at the key in place, or append. -/
def upsertGroup : List (String × Group) → Lead → List (String × Group)
  | [], l => [(leadKey l, bumpGroup zeroGroup l)]
  | (k, g) :: rest, l =>
    if k = leadKey l then (k, bumpGroup g l) :: rest
    else (k, g) :: upsertGroup rest l

def groupBySource (ls : List Lead) : List (String × Group) :=
  ls.foldl upsertGroup []

/-- A row of the weekly source-performance table. -/
structure SourceRow where
  source : String
  spend : ℚ
  leads : Nat
  booked : Nat
  sold : Nat
  cancelled : Nat
  soldAmount : ℚ
  revenue : ℚ
  cpl : ℚ
  fiveXReturn : ℚ
deriving DecidableEq

def rowOfGroup (p : String × Group) : SourceRow :=
  { source := p.1, spend := p.2.spend, leads := p.2.leads,
    booked := p.2.booked, sold := p.2.sold, cancelled := p.2.cancelled,
    soldAmount := p.2.soldAmount, revenue := p.2.revenue,
    cpl := if p.2.leads > 0 then p.2.spend / (p.2.leads : ℚ) else 0,
    fiveXReturn := p.2.spend * 5 }

/-- Insert into a descending-by-spend list, after existing rows of equal or
greater spend. -/
def insertRowSorted (r : SourceRow) : List SourceRow → List SourceRow
  | [] => [r]
  | x :: xs =>
    if x.spend ≤ r.spend then r :: x :: xs else x :: insertRowSorted r xs

/-- `.sort((a, b) => b.spend - a.spend)`: a stable sort descending by
spend (ES2019 `Array.prototype.sort` is stable), as a stable insertion
sort. -/
def sortRows : List SourceRow → List SourceRow
  | [] => []
  | r :: rest => insertRowSorted r (sortRows rest)

structure Totals where
  spend : ℚ
  leads : Nat
  booked : Nat
  sold : Nat
  cancelled : Nat
  soldAmount : ℚ
  revenue : ℚ
  avgReplyMins : ℚ
deriving DecidableEq

def zeroTotals : Totals :=
  { spend := 0, leads := 0, booked := 0, sold := 0, cancelled := 0,
    soldAmount := 0, revenue := 0, avgReplyMins := 0 }

def addRow (t : Totals) (r : SourceRow) : Totals :=
  { spend := t.spend + r.spend, leads := t.leads + r.leads,
    booked := t.booked + r.booked, sold := t.sold + r.sold,
    cancelled := t.cancelled + r.cancelled,
    soldAmount := t.soldAmount + r.soldAmount,
    revenue := t.revenue + r.revenue, avgReplyMins := t.avgReplyMins }

structure WeeklyResult where
  rows : List SourceRow
  totals : Totals
deriving DecidableEq

/-- The `weekly` view model: guard on the parsed selections, filter to the
window, group by source, derive per-row ratios, sort by descending spend,
fold the totals row, then attach the average reply minutes of the filtered
set. -/
def weeklyCompute (leads : List Lead) (year month startDay endDay : Nat) :
    WeeklyResult :=
  if year = 0 || month = 0 || startDay = 0 || endDay = 0 then
    { rows := [], totals := zeroTotals }
  else
    let filtered := windowFiltered leads year month startDay endDay
    let rows := sortRows ((groupBySource filtered).map rowOfGroup)
    let base := rows.foldl addRow zeroTotals
    let weeklyReply := filtered.filterMap getReplyMinutes
    let avg :=
      if weeklyReply.length > 0 then
        weeklyReply.foldl (· + ·) 0 / (weeklyReply.length : ℚ)
      else 0
    { rows := rows, totals := { base with avgReplyMins := avg } }

/-! ## Sample data used in concrete evaluations -/

/-- A legacy record: empty `replyTimeMinutes`, text-only `replyTime`. -/
def weekendLegacyLead : Lead :=
  { emptyLead with replyTime := some "(Weekend): 214" }

/-- The scorecard matrix of the end-to-end example. -/
def scorecardMatrixEx : List (List String) :=
  [["Channel", "JAN: 6", "JAN: 13"],
   ["Channel Performance"],
   ["Yelp", "3", "0"],
   ["Brand & Reputation"]]

/-- One complete header-keyed row. -/
def sampleRow : RowRec := [("date", "2024-01-02"), ("customer", "Bob")]

def sampleLeadA : Lead :=
  { emptyLead with
    date := "2024-03-02", customer := "x", leadSource := "A",
    leadCost := "$100", booked := .yes }

def sampleLeadB : Lead :=
  { emptyLead with
    date := "2024-03-05", customer := "y", leadSource := "B",
    leadCost := "$50" }

/-- The rows a mapped row must survive to be accepted: the mapped Leads of
the rows whose `date` and `customer` are both non-empty. -/
def acceptedLeads (rows : List RowRec) : List Lead :=
  (rows.map normalizeImportedLead).filter
    (fun l => !(l.date = "" || l.customer = ""))

/-! # Theorems -/

/-- JS `Number('')` is `0` (the ToNumber conversion maps the empty string
to `+0`), which is finite and non-negative. -/
theorem jsNumber_empty : jsNumber "" = some 0 := by decide

/-- C1 (amended): `getReplyMinutes` prefers `Number(replyTimeMinutes)`
whenever that parse is finite and non-negative — and the empty string
parses to `0`, so a Lead with empty `replyTimeMinutes` always yields `0`
(counted as zero, not excluded), regardless of any legacy `replyTime`.
Only when the parse fails (is non-finite) or is negative does the legacy
fallback apply: if `replyTime` is present and non-empty its first maximal
digit run is returned, and otherwise no value is contributed. -/
theorem C1_reply_minutes_resolution :
    (∀ l : Lead, l.replyTimeMinutes = "" → getReplyMinutes l = some 0) ∧
    (∀ l : Lead, ∀ q : ℚ, jsNumber l.replyTimeMinutes = some q → 0 ≤ q →
      getReplyMinutes l = some q) ∧
    (∀ l : Lead, ∀ t : String,
      (∀ q : ℚ, jsNumber l.replyTimeMinutes = some q → q < 0) →
      l.replyTime = some t → t ≠ "" →
      getReplyMinutes l =
        (firstDigitRunL t.data).map (fun ds => (natOfDigits ds : ℚ))) ∧
    (∀ l : Lead,
      (∀ q : ℚ, jsNumber l.replyTimeMinutes = some q → q < 0) →
      (l.replyTime = none ∨ l.replyTime = some "") →
      getReplyMinutes l = none) := by
  refine ⟨?_, ?_, ?_, ?_⟩
  · intro l h
    have h0 : jsNumber l.replyTimeMinutes = some 0 := by
      rw [h]; exact jsNumber_empty
    unfold getReplyMinutes
    rw [h0]
    simp
  · intro l q h hq
    unfold getReplyMinutes
    rw [h]
    simp [hq]
  · intro l t hneg ht htne
    unfold getReplyMinutes
    rw [ht]
    cases hj : jsNumber l.replyTimeMinutes with
    | none =>
      simp only [if_neg htne]
      cases firstDigitRunL t.data <;> simp
    | some q =>
      have hlt : ¬ (0 ≤ q) := not_le.mpr (hneg q hj)
      simp only [if_neg hlt, if_neg htne]
      cases firstDigitRunL t.data <;> simp
  · intro l hneg hrt
    unfold getReplyMinutes
    rcases hrt with h | h <;> rw [h] <;>
      cases hj : jsNumber l.replyTimeMinutes with
      | none => simp
      | some q =>
        have hlt : ¬ (0 ≤ q) := not_le.mpr (hneg q hj)
        simp [hlt]

theorem C1_reply_minutes_resolution_witness :
    getReplyMinutes weekendLegacyLead = some 0 :=
  C1_reply_minutes_resolution.1 weekendLegacyLead rfl

/-- C1 counterexample: a Lead with empty `replyTimeMinutes` and
`replyTime = "(Weekend): 214"` resolves to `0`, not to `214`, and a Lead
with both fields empty/absent also resolves to `0` rather than
contributing no value. -/
theorem C1_counterexample :
    getReplyMinutes weekendLegacyLead = some 0 ∧
    getReplyMinutes weekendLegacyLead ≠ some 214 ∧
    getReplyMinutes emptyLead = some 0 ∧
    getReplyMinutes emptyLead ≠ none :=
  ⟨by decide, by decide, by decide, by decide⟩

/-- C6: `parseMoney` strips every character that is not a digit, dot or
minus, parses the remainder with JS `Number`, coerces a non-finite parse to
`0` (so it always yields a finite rational), may return a negative value,
and satisfies the three concrete examples. -/
theorem C6_parseMoney_spec :
    parseMoney "$15" = 15 ∧ parseMoney "$0" = 0 ∧ parseMoney "abc" = 0 ∧
    (∀ s : String, stripMoney s = String.mk (s.data.filter isMoneyChar)) ∧
    (∀ s : String, jsNumber (stripMoney s) = none → parseMoney s = 0) ∧
    (∀ s : String, ∀ q : ℚ, jsNumber (stripMoney s) = some q →
      parseMoney s = q) ∧
    (∃ s : String, parseMoney s < 0) :=
  ⟨by decide, by decide, by decide, fun _ => rfl,
   fun s h => by simp [parseMoney, h],
   fun s q h => by simp [parseMoney, h],
   ⟨"-5", by decide⟩⟩

theorem C6_parseMoney_spec_witness :
    jsNumber (stripMoney "1.2.3") = none ∧ parseMoney "1.2.3" = 0 :=
  ⟨by decide, C6_parseMoney_spec.2.2.2.2.1 "1.2.3" (by decide)⟩

/-- The row-import loop, with an arbitrary starting accumulator: it appends
exactly the written forms of the accepted rows and counts them. -/
theorem importRowPhase_foldl (rows : List RowRec) (w : List Lead) (n : Nat) :
    rows.foldl
      (fun acc r =>
        let lead := normalizeImportedLead r
        if lead.date = "" || lead.customer = "" then acc
        else (acc.1 ++ [writeRecord lead], acc.2 + 1)) (w, n) =
    (w ++ (acceptedLeads rows).map writeRecord,
      n + (acceptedLeads rows).length) := by
  induction rows generalizing w n with
  | nil => simp [acceptedLeads]
  | cons r rest ih =>
    simp only [List.foldl_cons, acceptedLeads, List.map_cons, List.filter_cons]
    split
    · next h =>
      rw [ih]
      simp only [acceptedLeads]
      simp [h]
    · next h =>
      rw [ih]
      simp only [acceptedLeads]
      have h' : (decide ((normalizeImportedLead r).date = "") ||
          decide ((normalizeImportedLead r).customer = "")) = false := by
        simpa using h
      simp [h']
      omega

/-- `importRowPhase` written/count characterization. -/
theorem importRowPhase_eq (rows : List RowRec) :
    importRowPhase rows =
      ((acceptedLeads rows).map writeRecord, (acceptedLeads rows).length) := by
  unfold importRowPhase
  rw [importRowPhase_foldl]
  simp

/-- C3: in the import loop, a row whose mapped Lead has an empty date or an
empty customer is silently dropped — the written records are exactly the
write-forms of the rows whose mapped date and customer are both non-empty,
in order, and the reported imported count is exactly their number. -/
theorem C3_row_rejection (rows : List RowRec) :
    (importRowPhase rows).1 = (acceptedLeads rows).map writeRecord ∧
    (importRowPhase rows).2 = (acceptedLeads rows).length ∧
    (importRowPhase rows).2 = ((importRowPhase rows).1).length := by
  rw [importRowPhase_eq]
  simp

/-- C5: every record written by the import pipeline — the row loop shared by
all formats, and the whole tabular branch including the scorecard
expansion — and the manually saved record carry `jobWon` equal to `sold`
at the moment of write. -/
theorem C5_jobWon_mirrors_sold :
    (∀ rows : List RowRec, ∀ l ∈ (importRowPhase rows).1,
      l.jobWon = l.sold) ∧
    (∀ name text : String, ∀ year : Nat,
      ∀ l ∈ (handleCsvImport name text year).written, l.jobWon = l.sold) ∧
    (∀ form : Lead,
      (saveLeadRecord form).jobWon = (saveLeadRecord form).sold) := by
  have hw : ∀ l₀ : Lead, (writeRecord l₀).jobWon = (writeRecord l₀).sold :=
    fun _ => rfl
  have h1 : ∀ rows : List RowRec, ∀ l ∈ (importRowPhase rows).1,
      l.jobWon = l.sold := by
    intro rows l hl
    rw [importRowPhase_eq] at hl
    simp only [List.mem_map] at hl
    obtain ⟨a, -, rfl⟩ := hl
    exact hw a
  refine ⟨h1, ?_, fun _ => rfl⟩
  intro name text year l hl
  simp only [handleCsvImport] at hl
  split at hl
  · simp at hl
  · split at hl
    · simp only at hl
      rcases List.mem_append.mp hl with h | h
      · exact h1 _ _ h
      · simp only [List.mem_map] at h
        obtain ⟨a, -, rfl⟩ := h
        exact hw a
    · exact h1 _ _ hl

theorem C5_jobWon_mirrors_sold_witness :
    writeRecord (normalizeImportedLead sampleRow) ∈
      (importRowPhase [sampleRow]).1 ∧
    (writeRecord (normalizeImportedLead sampleRow)).jobWon =
      (writeRecord (normalizeImportedLead sampleRow)).sold :=
  ⟨by decide, C5_jobWon_mirrors_sold.1 [sampleRow] _ (by decide)⟩

/-- C2 counterexample: the file `a.txt` (an unrecognized extension, which
the dispatch sends down the tabular path) produces one row record, zero
accepted records — and the scorecard transformer is *not* attempted,
because the fallback is gated on the `.csv`/`.tsv` name suffix. -/
theorem C2_counterexample :
    importDispatchIsTabular "a.txt" = true ∧
    (handleCsvImport "a.txt" "foo,bar\nx,y" 2025).rowsCount = 1 ∧
    (handleCsvImport "a.txt" "foo,bar\nx,y" 2025).acceptedCount = 0 ∧
    (handleCsvImport "a.txt" "foo,bar\nx,y" 2025).scorecardAttempted = false :=
  ⟨by decide, by decide, by decide, by decide⟩

/-- C2 (amended): on the tabular path the Scorecard Transformer is
attempted exactly when the tabular phase produced at least one row record,
zero rows were accepted, *and* the lower-cased file name ends in `.csv` or
`.tsv`; a file with any other (unrecognized) extension, or a file whose
tabular parse yields no records at all, never triggers it. -/
theorem C2_scorecard_fallback_gate (name text : String) (year : Nat) :
    (handleCsvImport name text year).scorecardAttempted =
      (!(csvToRows text).isEmpty &&
        (decide ((importRowPhase (csvToRows text)).2 = 0) &&
          (strEndsWith (jsToLower name) ".csv" ||
            strEndsWith (jsToLower name) ".tsv"))) := by
  simp only [handleCsvImport]
  split
  · next h => simp [h]
  · next h =>
    split
    · next hc =>
      have hf : (csvToRows text).isEmpty = false := by simpa using h
      simp [hf, hc]
    · next hc =>
      have : (decide ((importRowPhase (csvToRows text)).2 = 0) &&
          (strEndsWith (jsToLower name) ".csv" ||
            strEndsWith (jsToLower name) ".tsv")) = false := by
        simpa using hc
      simp [this]

/-- Each synthesized Lead of the example carries the reconstructed date
`<year>-01-06`. -/
theorem scorecardLead_date_ex (year i : Nat) :
    (scorecardLead year "Yelp" "JAN: 6" 1 6 i).date =
      toString year ++ "-01-06" := by
  show toString year ++ "-" ++ pad2 1 ++ "-" ++ pad2 6 =
    toString year ++ "-01-06"
  simp only [String.append_assoc]
  congr 1

/-- C4: on the matrix with header `["Channel","JAN: 6","JAN: 13"]`, a
`"Channel Performance"` start row, one `["Yelp","3","0"]` data row and a
`"Brand & Reputation"` end row, the transform yields exactly 3 Leads, all
with `leadSource = "Yelp"`, `jobType = "Imported"`, and date
`<year>-01-06`, with pairwise-distinct customers
`"Imported Yelp Lead 1..3"`. -/
theorem C4_scorecard_end_to_end (year : Nat) :
    scorecardFromMatrix scorecardMatrixEx year =
      [scorecardLead year "Yelp" "JAN: 6" 1 6 1,
       scorecardLead year "Yelp" "JAN: 6" 1 6 2,
       scorecardLead year "Yelp" "JAN: 6" 1 6 3] ∧
    (scorecardFromMatrix scorecardMatrixEx year).length = 3 ∧
    (∀ l ∈ scorecardFromMatrix scorecardMatrixEx year,
      l.leadSource = "Yelp" ∧ l.jobType = "Imported" ∧
        l.date = toString year ++ "-01-06") ∧
    (scorecardFromMatrix scorecardMatrixEx year).map (fun l => l.customer) =
      ["Imported Yelp Lead 1", "Imported Yelp Lead 2",
       "Imported Yelp Lead 3"] ∧
    ((scorecardFromMatrix scorecardMatrixEx year).map
      (fun l => l.customer)).Nodup := by
  have hlist : scorecardFromMatrix scorecardMatrixEx year =
      [scorecardLead year "Yelp" "JAN: 6" 1 6 1,
       scorecardLead year "Yelp" "JAN: 6" 1 6 2,
       scorecardLead year "Yelp" "JAN: 6" 1 6 3] := by rfl
  refine ⟨hlist, by rw [hlist]; rfl, ?_, ?_, ?_⟩
  · intro l hl
    rw [hlist] at hl
    simp only [List.mem_cons, List.not_mem_nil, or_false] at hl
    rcases hl with rfl | rfl | rfl <;>
      exact ⟨rfl, rfl, scorecardLead_date_ex year _⟩
  · rw [hlist]; rfl
  · rw [hlist]
    show ((["Imported Yelp Lead 1", "Imported Yelp Lead 2",
      "Imported Yelp Lead 3"] : List String)).Nodup
    decide

theorem C4_scorecard_end_to_end_witness :
    (scorecardLead 2026 "Yelp" "JAN: 6" 1 6 1).leadSource = "Yelp" ∧
    (scorecardLead 2026 "Yelp" "JAN: 6" 1 6 1).jobType = "Imported" ∧
    (scorecardLead 2026 "Yelp" "JAN: 6" 1 6 1).date =
      toString 2026 ++ "-01-06" :=
  (C4_scorecard_end_to_end 2026).2.2.1 _ (by decide)

/-- Every valid month has 28, 29, 30 or 31 days. -/
theorem daysInMonth_cases (y m : Nat) (h1 : 1 ≤ m) (h2 : m ≤ 12) :
    daysInMonth y m = 28 ∨ daysInMonth y m = 29 ∨
    daysInMonth y m = 30 ∨ daysInMonth y m = 31 := by
  unfold daysInMonth gregorianDays
  interval_cases m
  all_goals cases isLeap (jsFullYear y)
  all_goals simp

/-- C7: for every valid year and month, `monthWeeks` partitions the days
`1..lastDay` of the month into contiguous ranges of at most 7 days starting
at day 1; in particular a 30-day month yields exactly
`["1-7","8-14","15-21","22-28","29-30"]`. -/
theorem C7_month_partition (y m : Nat) (hy : y ≠ 0) (h1 : 1 ≤ m)
    (h2 : m ≤ 12) :
    coversFrom 1 (daysInMonth y m) (weekRanges (daysInMonth y m)) = true ∧
    monthWeeks y m =
      (weekRanges (daysInMonth y m)).map (fun p => weekLabel p.1 p.2) ∧
    (daysInMonth y m = 30 →
      monthWeeks y m = ["1-7", "8-14", "15-21", "22-28", "29-30"]) := by
  have hm : m ≠ 0 := by omega
  have hguard : monthWeeks y m =
      (weekRanges (daysInMonth y m)).map (fun p => weekLabel p.1 p.2) := by
    unfold monthWeeks
    simp [hy, hm]
  refine ⟨?_, hguard, ?_⟩
  · rcases daysInMonth_cases y m h1 h2 with h | h | h | h <;> rw [h] <;> decide
  · intro h30
    rw [hguard, h30]
    decide

theorem C7_month_partition_witness :
    coversFrom 1 (daysInMonth 2023 4) (weekRanges (daysInMonth 2023 4)) =
      true ∧
    monthWeeks 2023 4 = ["1-7", "8-14", "15-21", "22-28", "29-30"] :=
  ⟨(C7_month_partition 2023 4 (by decide) (by decide) (by decide)).1,
   (C7_month_partition 2023 4 (by decide) (by decide) (by decide)).2.2
     (by decide)⟩

/-- C9: the global KPIs — `totalLeads` is the Lead count, `wonLeads` counts
`jobWon = "Yes"`, and `winRate` is `0` on an empty set and otherwise
`wonLeads / totalLeads × 100`. -/
theorem C9_winRate (leads : List Lead) :
    (stats leads).totalLeads = leads.length ∧
    (stats leads).wonLeads = leads.countP (fun l => l.jobWon = YesNo.yes) ∧
    (stats leads).winRate =
      (if leads.length = 0 then 0
       else ((leads.countP (fun l => l.jobWon = YesNo.yes) : ℚ) /
          (leads.length : ℚ)) * 100) := by
  have hcount : (leads.filter (fun l => l.jobWon = YesNo.yes)).length =
      leads.countP (fun l => l.jobWon = YesNo.yes) :=
    (List.countP_eq_length_filter _ _).symm
  refine ⟨rfl, hcount, ?_⟩
  show (if leads.length > 0 then
      (((leads.filter (fun l => l.jobWon = YesNo.yes)).length : ℚ) /
        (leads.length : ℚ)) * 100
    else 0) = _
  rcases Nat.eq_zero_or_pos leads.length with h | h
  · simp [h]
  · rw [if_pos h, if_neg (by omega), hcount]

/-- An opening quote (outside quotes) toggles the in-quotes state and emits
nothing. -/
theorem commaSplitAux_open (rest cur vals) :
    commaSplitAux ('"' :: rest) false cur vals =
      commaSplitAux rest true cur vals := by
  rw [commaSplitAux.eq_def]
  split <;> try simp_all
  rename_i hne heq _
  exact absurd heq.1.symm hne

/-- Two consecutive quotes inside quotes emit one literal quote. -/
theorem commaSplitAux_escape (rest cur vals) :
    commaSplitAux ('"' :: '"' :: rest) true cur vals =
      commaSplitAux rest true (cur ++ ['"']) vals := rfl

/-- Inside quotes, any non-quote character — a comma included — is
appended to the current field without splitting. -/
theorem commaSplitAux_plain (c : Char) (hc : c ≠ '"') (rest cur vals) :
    commaSplitAux (c :: rest) true cur vals =
      commaSplitAux rest true (cur ++ [c]) vals := by
  rw [commaSplitAux.eq_def]
  split <;> simp_all

/-- A whole quote-free run is consumed inside quotes without splitting. -/
theorem commaSplitAux_run (mid : List Char) (hmid : ∀ c ∈ mid, c ≠ '"')
    (rest cur vals) :
    commaSplitAux (mid ++ rest) true cur vals =
      commaSplitAux rest true (cur ++ mid) vals := by
  induction mid generalizing cur with
  | nil => simp
  | cons c cs ih =>
    have hc : c ≠ '"' := hmid c (List.mem_cons_self c cs)
    rw [List.cons_append, commaSplitAux_plain c hc,
      ih (fun x hx => hmid x (List.mem_cons_of_mem c hx))]
    simp

/-- A single quoted field (its content free of quotes, commas allowed) is
one output cell. -/
theorem splitCommaLine_quoted (mid : List Char)
    (hmid : ∀ c ∈ mid, c ≠ '"') :
    splitCommaLine ('"' :: (mid ++ ['"'])) = [trimL mid] := by
  unfold splitCommaLine
  rw [commaSplitAux_open, commaSplitAux_run mid hmid]
  rw [List.nil_append]
  rfl

/-- An escaped quote `""` inside a quoted field collapses to one literal
quote in the output cell. -/
theorem splitCommaLine_escaped (m₁ m₂ : List Char)
    (h₁ : ∀ c ∈ m₁, c ≠ '"') (h₂ : ∀ c ∈ m₂, c ≠ '"') :
    splitCommaLine ('"' :: (m₁ ++ '"' :: '"' :: (m₂ ++ ['"']))) =
      [trimL (m₁ ++ '"' :: m₂)] := by
  unfold splitCommaLine
  rw [commaSplitAux_open, commaSplitAux_run m₁ h₁, commaSplitAux_escape,
    commaSplitAux_run m₂ h₂]
  have hfin : ∀ cur : List Char, commaSplitAux ['"'] true cur [] =
      [trimL cur] := fun _ => rfl
  rw [hfin]
  simp [List.append_assoc]

/-- C8: the delimiter is chosen once per file from the first non-empty
line — tab mode splits every line strictly on tabs with quotes
uninterpreted, comma mode runs the quote-aware machine on every line — and
in comma mode a comma inside an open quoted region does not split the
field, while two consecutive quotes inside quotes collapse to one literal
quote in the output cell. -/
theorem C8_delimiter_and_quotes :
    (∀ text : String, ∀ first rest, csvLines text = first :: rest →
      first.contains '\t' = true →
      csvToMatrix text =
        (csvLines text).map (fun l => (splitTabLine l).map String.mk)) ∧
    (∀ text : String, ∀ first rest, csvLines text = first :: rest →
      first.contains '\t' = false →
      csvToMatrix text =
        (csvLines text).map (fun l => (splitCommaLine l).map String.mk)) ∧
    (∀ mid : List Char, (∀ c ∈ mid, c ≠ '"') →
      splitCommaLine ('"' :: (mid ++ ['"'])) = [trimL mid]) ∧
    (∀ m₁ m₂ : List Char, (∀ c ∈ m₁, c ≠ '"') → (∀ c ∈ m₂, c ≠ '"') →
      splitCommaLine ('"' :: (m₁ ++ '"' :: '"' :: (m₂ ++ ['"']))) =
        [trimL (m₁ ++ '"' :: m₂)]) := by
  refine ⟨?_, ?_, splitCommaLine_quoted, splitCommaLine_escaped⟩
  · intro text first rest h htab
    unfold csvToMatrix
    rw [h]
    show List.map (parseLine (first.contains '\t')) (first :: rest) = _
    rw [htab]
    rfl
  · intro text first rest h htab
    unfold csvToMatrix
    rw [h]
    show List.map (parseLine (first.contains '\t')) (first :: rest) = _
    rw [htab]
    rfl

theorem C8_delimiter_and_quotes_witness :
    csvToMatrix "a\tb\nc,d" =
      (csvLines "a\tb\nc,d").map (fun l => (splitTabLine l).map String.mk) ∧
    splitCommaLine ('"' :: ("b,c".data ++ ['"'])) = [trimL "b,c".data] :=
  ⟨C8_delimiter_and_quotes.1 "a\tb\nc,d" ['a', '\t', 'b'] [['c', ',', 'd']]
      (by decide) (by decide),
   C8_delimiter_and_quotes.2.2.1 "b,c".data (by decide)⟩

/-- Sorted insertion is a permutation of consing. -/
theorem insertRowSorted_perm (r : SourceRow) (l : List SourceRow) :
    (insertRowSorted r l).Perm (r :: l) := by
  induction l with
  | nil => exact List.Perm.refl _
  | cons x xs ih =>
    unfold insertRowSorted
    split
    · exact List.Perm.refl _
    · exact (ih.cons x).trans (List.Perm.swap r x xs)

/-- The spend-descending sort permutes the rows. -/
theorem sortRows_perm (rows : List SourceRow) : (sortRows rows).Perm rows := by
  induction rows with
  | nil => exact List.Perm.refl _
  | cons r rest ih =>
    exact (insertRowSorted_perm r (sortRows rest)).trans (ih.cons r)

/-- The totals fold accumulates any additive field of the rows. -/
theorem foldl_addRow_generic {α : Type} [AddCommMonoid α] (tf : Totals → α)
    (rf : SourceRow → α) (hadd : ∀ t r, tf (addRow t r) = tf t + rf r)
    (rows : List SourceRow) (t : Totals) :
    tf (rows.foldl addRow t) = tf t + (rows.map rf).sum := by
  induction rows generalizing t with
  | nil => simp
  | cons r rest ih =>
    rw [List.foldl_cons, ih, hadd]
    simp [add_assoc]

/-- The object upsert adds one Lead's contribution to any additive field of
the grouped accumulator. -/
theorem upsertGroup_sum {α : Type} [AddCommMonoid α] (gf : Group → α)
    (cf : Lead → α) (hbump : ∀ g l, gf (bumpGroup g l) = gf g + cf l)
    (hzero : gf zeroGroup = 0) (acc : List (String × Group)) (l : Lead) :
    ((upsertGroup acc l).map (fun p => gf p.2)).sum =
      ((acc.map (fun p => gf p.2)).sum) + cf l := by
  induction acc with
  | nil => simp [upsertGroup, hbump, hzero]
  | cons p rest ih =>
    cases p with
    | mk k g =>
      simp only [upsertGroup]
      split
      · simp [hbump, add_assoc, add_comm, add_left_comm]
      · simp only [List.map_cons, List.sum_cons, ih]
        rw [add_assoc]

/-- Folding the whole Lead list into groups accumulates each Lead's
contribution exactly once. -/
theorem foldl_upsertGroup_sum {α : Type} [AddCommMonoid α] (gf : Group → α)
    (cf : Lead → α) (hbump : ∀ g l, gf (bumpGroup g l) = gf g + cf l)
    (hzero : gf zeroGroup = 0) (ls : List Lead)
    (acc : List (String × Group)) :
    (((ls.foldl upsertGroup acc).map (fun p => gf p.2)).sum) =
      ((acc.map (fun p => gf p.2)).sum) + (ls.map cf).sum := by
  induction ls generalizing acc with
  | nil => simp
  | cons l rest ih =>
    rw [List.foldl_cons, ih, upsertGroup_sum gf cf hbump hzero]
    simp [add_assoc]

/-- Group-then-sum over the grouped accumulator equals the direct sum over
the Lead list. -/
theorem groupBySource_sum {α : Type} [AddCommMonoid α] (gf : Group → α)
    (cf : Lead → α) (hbump : ∀ g l, gf (bumpGroup g l) = gf g + cf l)
    (hzero : gf zeroGroup = 0) (ls : List Lead) :
    (((groupBySource ls).map (fun p => gf p.2)).sum) = (ls.map cf).sum := by
  unfold groupBySource
  rw [foldl_upsertGroup_sum gf cf hbump hzero]
  simp

/-- Any additive field of the weekly totals fold equals the direct sum of
per-Lead contributions over the filtered set. -/
theorem weekly_totals_field {α : Type} [AddCommMonoid α] (tf : Totals → α)
    (rf : SourceRow → α) (gf : Group → α) (cf : Lead → α)
    (hadd : ∀ t r, tf (addRow t r) = tf t + rf r)
    (hzero : tf zeroTotals = 0)
    (hrow : ∀ p, rf (rowOfGroup p) = gf p.2)
    (hbump : ∀ g l, gf (bumpGroup g l) = gf g + cf l)
    (hgzero : gf zeroGroup = 0) (ls : List Lead) :
    tf ((sortRows ((groupBySource ls).map rowOfGroup)).foldl addRow
      zeroTotals) = (ls.map cf).sum := by
  rw [foldl_addRow_generic tf rf hadd, hzero, zero_add]
  rw [List.Perm.sum_eq ((sortRows_perm _).map rf)]
  rw [List.map_map]
  have hcomp : (rf ∘ rowOfGroup) = fun p => gf p.2 := funext hrow
  rw [hcomp, groupBySource_sum gf cf hbump hgzero]

/-- Counting with a Bool predicate is summing its indicator. -/
theorem countP_eq_sum_map {α : Type} (p : α → Bool) (l : List α) :
    l.countP p = (l.map (fun x => if p x then 1 else 0)).sum := by
  induction l with
  | nil => rfl
  | cons x xs ih => simp [List.countP_cons, ih, add_comm]

/-- The length is the sum of the all-ones map. -/
theorem length_eq_sum_map {α : Type} (l : List α) :
    l.length = (l.map (fun _ => (1 : Nat))).sum := by
  induction l with
  | nil => rfl
  | cons x xs ih =>
    simp only [List.length_cons, List.map_cons, List.sum_cons, ih]
    omega

/-- C10: the weekly totals row computed by grouping per source, sorting,
and summing the grouped rows equals direct aggregation over the filtered
Lead set — count, spend, booked/sold/cancelled counts and the soldAmount
and revenue sums (group-then-sum is a homomorphism of the filtered set). -/
theorem C10_weekly_totals (leads : List Lead) (y m sd ed : Nat)
    (hy : y ≠ 0) (hm : m ≠ 0) (hsd : sd ≠ 0) (hed : ed ≠ 0) :
    (weeklyCompute leads y m sd ed).totals.leads =
      (windowFiltered leads y m sd ed).length ∧
    (weeklyCompute leads y m sd ed).totals.spend =
      ((windowFiltered leads y m sd ed).map
        (fun l => parseMoney l.leadCost)).sum ∧
    (weeklyCompute leads y m sd ed).totals.booked =
      (windowFiltered leads y m sd ed).countP
        (fun l => l.booked = YesNo.yes) ∧
    (weeklyCompute leads y m sd ed).totals.sold =
      (windowFiltered leads y m sd ed).countP
        (fun l => l.sold = YesNo.yes) ∧
    (weeklyCompute leads y m sd ed).totals.cancelled =
      (windowFiltered leads y m sd ed).countP
        (fun l => l.cancelled = YesNo.yes) ∧
    (weeklyCompute leads y m sd ed).totals.soldAmount =
      ((windowFiltered leads y m sd ed).map
        (fun l => parseMoney l.soldAmount)).sum ∧
    (weeklyCompute leads y m sd ed).totals.revenue =
      ((windowFiltered leads y m sd ed).map
        (fun l => parseMoney l.revenue)).sum := by
  have hcount : ∀ (f : List Lead) (p : Lead → Prop) [DecidablePred p],
      f.countP (fun l => decide (p l)) =
        (f.map (fun l => if p l then (1 : ℕ) else 0)).sum := by
    intro f p hp
    rw [countP_eq_sum_map]
    simp
  have hguard : ¬((decide (y = 0) || decide (m = 0) || decide (sd = 0) ||
      decide (ed = 0)) = true) := by simp [hy, hm, hsd, hed]
  refine ⟨?_, ?_, ?_, ?_, ?_, ?_, ?_⟩
  all_goals unfold weeklyCompute
  all_goals rw [if_neg hguard]
  · exact (weekly_totals_field (fun t => t.leads) (fun r => r.leads)
      (fun g => g.leads) (fun _ => (1 : ℕ)) (fun _ _ => rfl) rfl
      (fun _ => rfl) (fun _ _ => rfl) rfl _).trans
      (length_eq_sum_map _).symm
  · exact weekly_totals_field (fun t => t.spend) (fun r => r.spend)
      (fun g => g.spend) (fun l => parseMoney l.leadCost) (fun _ _ => rfl)
      rfl (fun _ => rfl) (fun _ _ => rfl) rfl _
  · exact (weekly_totals_field (fun t => t.booked) (fun r => r.booked)
      (fun g => g.booked) (fun l => if l.booked = YesNo.yes then 1 else 0)
      (fun _ _ => rfl) rfl (fun _ => rfl)
      (fun g l => by
        by_cases h : l.booked = YesNo.yes <;> simp [bumpGroup, h]) rfl
      _).trans (hcount _ _).symm
  · exact (weekly_totals_field (fun t => t.sold) (fun r => r.sold)
      (fun g => g.sold) (fun l => if l.sold = YesNo.yes then 1 else 0)
      (fun _ _ => rfl) rfl (fun _ => rfl)
      (fun g l => by
        by_cases h : l.sold = YesNo.yes <;> simp [bumpGroup, h]) rfl
      _).trans (hcount _ _).symm
  · exact (weekly_totals_field (fun t => t.cancelled) (fun r => r.cancelled)
      (fun g => g.cancelled)
      (fun l => if l.cancelled = YesNo.yes then 1 else 0)
      (fun _ _ => rfl) rfl (fun _ => rfl)
      (fun g l => by
        by_cases h : l.cancelled = YesNo.yes <;> simp [bumpGroup, h]) rfl
      _).trans (hcount _ _).symm
  · exact weekly_totals_field (fun t => t.soldAmount) (fun r => r.soldAmount)
      (fun g => g.soldAmount) (fun l => parseMoney l.soldAmount)
      (fun _ _ => rfl) rfl (fun _ => rfl) (fun _ _ => rfl) rfl _
  · exact weekly_totals_field (fun t => t.revenue) (fun r => r.revenue)
      (fun g => g.revenue) (fun l => parseMoney l.revenue) (fun _ _ => rfl)
      rfl (fun _ => rfl) (fun _ _ => rfl) rfl _

theorem C10_weekly_totals_witness :
    (weeklyCompute [sampleLeadB, sampleLeadA] 2024 3 1 7).totals.leads =
      (windowFiltered [sampleLeadB, sampleLeadA] 2024 3 1 7).length ∧
    (weeklyCompute [sampleLeadB, sampleLeadA] 2024 3 1 7).totals.spend =
      ((windowFiltered [sampleLeadB, sampleLeadA] 2024 3 1 7).map
        (fun l => parseMoney l.leadCost)).sum :=
  ⟨(C10_weekly_totals [sampleLeadB, sampleLeadA] 2024 3 1 7 (by decide)
      (by decide) (by decide) (by decide)).1,
   (C10_weekly_totals [sampleLeadB, sampleLeadA] 2024 3 1 7 (by decide)
      (by decide) (by decide) (by decide)).2.1⟩
